import Mathlib

/-!
# Chore Tracker: shallow embedding and verification

A shallow embedding of the `chore_tracker` Home Assistant custom component
(two revisions of `switch.py`: the older `src/switch.py`, called V1 below,
and the newer `src/custom_components/chore_tracker/switch.py`, called V2),
together with theorems settling the specification claims about the due-date
calculator, the chore state machine, its restore protocol and its single
pending wake-up timer.

Modelling conventions:
* A Python `datetime` is modelled as a `Nat` of seconds since an epoch
  (`DT`); `d.date()` is `dateOf`, whole days since the epoch, and
  `datetime.combine(d.date(), time(hour=5))` is `combine5 (dateOf d)`.
  `datetime.fromisoformat` is modelled on its canonical input shapes
  (`YYYY-MM-DD` and `YYYY-MM-DDTHH:MM:SS`) using Python's proleptic
  Gregorian ordinal; any other string is a parse failure.
* Strings are handled at `List Char` level; the regex character classes
  `\d` and `\s` and `str.lower` are modelled over ASCII, which covers every
  interval/timestamp string the component itself produces or documents.
* The host scheduler is modelled explicitly: `Sys.live` is the list of
  scheduled, not-yet-cancelled, not-yet-fired wake-up timers
  `(handle, fire time)`, `Sys.fresh` supplies fresh handles, and
  `Sys.unsub_timer` is the entity's `self._unsub_timer` field (the handle
  it would cancel).  Cancelling removes the handle from `live`.
* Fallible Python code (`try`/`except`) is modelled with `Option`.
-/

/-- Python `datetime`, as seconds since an epoch. -/
abbrev DT := Nat

/-- `d.date()` as a count of whole days: the calendar date of a timestamp. -/
def dateOf (t : DT) : Nat := t / 86400

/-- `datetime.combine(date, time(hour=5))`: 05:00 on the given calendar day. -/
def combine5 (d : Nat) : DT := d * 86400 + 5 * 3600

/-- The regex class `\s` (ASCII part), also Python `str.strip`'s notion of
whitespace. -/
def isPySpace (c : Char) : Bool :=
  c = ' ' || c = '\t' || c = '\n' || c = '\r' || c = '\x0b' || c = '\x0c'

/-- Python `str.strip()`: drop leading and trailing whitespace. -/
def stripChars (cs : List Char) : List Char :=
  ((cs.dropWhile isPySpace).reverse.dropWhile isPySpace).reverse

/-- `interval.strip().lower()` on the underlying characters. -/
def normInterval (s : String) : List Char :=
  (stripChars s.data).map Char.toLower

/-- `int(match.group(1))`: the numeric value of a digit run. -/
def digitsVal (ds : List Char) : Nat :=
  ds.foldl (fun n c => n * 10 + (c.toNat - 48)) 0

/-- The alternatives of the regex alternation
`(day|days|week|weeks|month|months|year|years)`, in source order.
`re` picks the first alternative that matches. -/
def unitAlts : List String :=
  ["day", "days", "week", "weeks", "month", "months", "year", "years"]

/-- `re.match(r"(\d+)\s*(day|days|week|weeks|month|months|year|years)", cs)`:
anchored at the start only (no `$`, so trailing characters are ignored),
returning `(int(group(1)), group(2))`.  Greedy `\d+` and `\s*` need no
backtracking here: no alternative starts with a digit or a space, so the
maximal digit run and the maximal following space run are the only viable
split. -/
def reMatchInterval (cs : List Char) : Option (Nat × String) :=
  if (cs.takeWhile Char.isDigit).isEmpty then none
  else
    match unitAlts.find? (fun a =>
        a.data.isPrefixOf ((cs.dropWhile Char.isDigit).dropWhile isPySpace)) with
    | some u => some (digitsVal (cs.takeWhile Char.isDigit), u)
    | none => none

/-- Substring test: does `sub` occur contiguously in the second list? -/
def containsSub (sub : List Char) : List Char → Bool
  | [] => sub.isEmpty
  | c :: rest => sub.isPrefixOf (c :: rest) || containsSub sub rest

/-- Python `sub in s` substring containment (used as `"day" in unit`). -/
def pyIn (sub s : String) : Bool := containsSub sub.data s.data

/-- The shared body of `_calculate_next_due` (identical in both source
revisions apart from logging): match the interval against the regex, add the
unit's fixed offset to `start`, and anchor the result to 05:00 on the
resulting calendar date.  `timedelta(weeks=n)` is `n * 7` days; month and
year use fixed 30- and 365-day offsets. -/
def calcNextDueCore (interval : String) (start : DT) : Option DT :=
  match reMatchInterval (normInterval interval) with
  | none => none
  | some (num, unit) =>
    let due? : Option DT :=
      if pyIn "day" unit then some (start + num * 86400)
      else if pyIn "week" unit then some (start + num * (7 * 86400))
      else if pyIn "month" unit then some (start + (30 * num) * 86400)
      else if pyIn "year" unit then some (start + (365 * num) * 86400)
      else none
    due?.map fun due => combine5 (dateOf due)

/-- `ChoreSwitch._calculate_next_due` of revision V1 (`src/switch.py`,
lines 242-262). -/
def calculate_next_due_v1 (interval : String) (start : DT) : Option DT :=
  calcNextDueCore interval start

/-- `ChoreSwitch._calculate_next_due` of revision V2
(`src/custom_components/chore_tracker/switch.py`, lines 300-331): identical
except for the extra `if not self._interval: return None` guard. -/
def calculate_next_due_v2 (interval : String) (start : DT) : Option DT :=
  if interval = "" then none
  else calcNextDueCore interval start

/-- Leap-year test of the Gregorian calendar (as in Python's `datetime`). -/
def isLeapYear (y : Nat) : Bool :=
  y % 4 = 0 && (y % 100 ≠ 0 || y % 400 = 0)

/-- Length of month `m` (1-12) of year `y`. -/
def daysInMonth (y m : Nat) : Nat :=
  if m = 2 then (if isLeapYear y then 29 else 28)
  else if m = 4 || m = 6 || m = 9 || m = 11 then 30
  else 31

/-- Days in year `y` strictly before month `m`. -/
def daysBeforeMonth (y m : Nat) : Nat :=
  (List.range (m - 1)).foldl (fun acc i => acc + daysInMonth y (i + 1)) 0

/-- Python `datetime.toordinal()`: day number of `y-m-d` in the proleptic
Gregorian calendar, with 0001-01-01 at ordinal 1. -/
def toOrdinal (y m d : Nat) : Nat :=
  365 * (y - 1) + (y - 1) / 4 - (y - 1) / 100 + (y - 1) / 400
    + daysBeforeMonth y m + d

/-- Assemble a timestamp from digit runs after validating digits and ranges;
`none` models a raised `ValueError`. -/
def mkDT (ys ms ds hs mins ss : List Char) : Option DT :=
  if (ys ++ ms ++ ds ++ hs ++ mins ++ ss).all Char.isDigit then
    let y := digitsVal ys
    let m := digitsVal ms
    let d := digitsVal ds
    let h := digitsVal hs
    let mi := digitsVal mins
    let sec := digitsVal ss
    if 1 ≤ y && 1 ≤ m && m ≤ 12 && 1 ≤ d && d ≤ daysInMonth y m
        && h < 24 && mi < 60 && sec < 60 then
      some ((toOrdinal y m d - 1) * 86400 + h * 3600 + mi * 60 + sec)
    else none
  else none

/-- `datetime.fromisoformat`, modelled on the canonical shapes the component
itself writes (`isoformat()` output at second precision) and the date-only
form the setup form seeds: `YYYY-MM-DD` and `YYYY-MM-DDTHH:MM:SS`.  Every
other string is a parse failure (`none`, the `except` branch in callers). -/
def fromisoformat (s : String) : Option DT :=
  match s.data with
  | [y1, y2, y3, y4, '-', mo1, mo2, '-', d1, d2] =>
      mkDT [y1, y2, y3, y4] [mo1, mo2] [d1, d2] ['0', '0'] ['0', '0'] ['0', '0']
  | [y1, y2, y3, y4, '-', mo1, mo2, '-', d1, d2, 'T',
     h1, h2, ':', mi1, mi2, ':', s1, s2] =>
      mkDT [y1, y2, y3, y4] [mo1, mo2] [d1, d2] [h1, h2] [mi1, mi2] [s1, s2]
  | _ => none

/-- A `Last_Completed`/`Next_Due` value held in config-entry data: the V1
options flow stores a parsed `datetime`, the other flows store the raw
string. -/
inductive PyTimeVal
  | str (s : String)
  | dt (t : DT)
deriving DecidableEq

/-- Python truthiness of such a value (`if next_due_raw:`): the empty string
is falsy, a `datetime` is always truthy. -/
def PyTimeVal.truthy : PyTimeVal → Bool
  | .str s => s ≠ ""
  | .dt _ => true

/-- `datetime.fromisoformat(v) if isinstance(v, str) else v` inside `try`
(V1 `_update_from_config`); `none` is the `except` branch. -/
def PyTimeVal.parse : PyTimeVal → Option DT
  | .str s => fromisoformat s
  | .dt t => some t

/-- `datetime.fromisoformat(v)` applied unconditionally inside `try`
(V2 `__init__`): a non-string raises `TypeError`, so only strings parse. -/
def PyTimeVal.parseStrOnly : PyTimeVal → Option DT
  | .str s => fromisoformat s
  | .dt _ => none

/-- The config-entry fields the state machine reads.  `Friendly_Name`,
`Name`, `Assigned_To` and `Room` are presentation-only (they feed entity
naming and display attributes, never the due-date or timer logic) and are
not modelled.  `none` models an absent key. -/
structure ConfigData where
  interval : Option String
  last_completed : Option PyTimeVal
  next_due : Option PyTimeVal
deriving DecidableEq

/-- The persisted snapshot attributes the restore path reads
(`last_state.attributes.get(...)`). -/
structure SnapshotAttrs where
  last_completed : Option String
  next_due : Option String
deriving DecidableEq

/-- A persisted snapshot (`await self.async_get_last_state()`): the
on/off state string plus attributes; `attributes = none` models a missing
or empty (falsy) attribute dict. -/
structure Snapshot where
  state : String
  attributes : Option SnapshotAttrs
deriving DecidableEq

/-- `if s:` on an optional string attribute: absent and empty are falsy. -/
def truthyStr : Option String → Bool
  | some s => s ≠ ""
  | none => false

/-- The chore entity plus the host scheduler's view of its timers.
`live` holds the outstanding (scheduled, not cancelled, not fired) one-shot
wake-ups as `(handle, fire time)` pairs; `fresh` is the host's next unused
handle; `unsub_timer` is the entity's `self._unsub_timer` cancel handle. -/
structure Sys where
  state : Bool
  last_completed : Option DT
  next_due : Option DT
  interval : String
  initial_next_due : Option DT
  unsub_timer : Option Nat
  live : List (Nat × DT)
  fresh : Nat
deriving DecidableEq

/-- `if getattr(self, "_unsub_timer", None): self._unsub_timer()`: the live
timers left after cancelling the stored handle, if any. -/
def cancelUnsub (s : Sys) : List (Nat × DT) :=
  match s.unsub_timer with
  | some h => s.live.filter (fun p => p.1 ≠ h)
  | none => s.live

/-- `ChoreSwitch.async_turn_on` (both revisions): set state directly. -/
def async_turn_on (s : Sys) : Sys := { s with state := true }

/-- `ChoreSwitch.async_turn_off` of V1 (`src/switch.py` lines 211-222), the
mark-complete event: record completion now, recompute the due date, and —
only when a due date was computed — cancel any stored timer and arm a fresh
one at it. -/
def async_turn_off_v1 (now : DT) (s : Sys) : Sys :=
  match calculate_next_due_v1 s.interval now with
  | some t =>
      { s with state := false, last_completed := some now, next_due := some t,
               live := (s.fresh, t) :: cancelUnsub s,
               unsub_timer := some s.fresh, fresh := s.fresh + 1 }
  | none => { s with state := false, last_completed := some now, next_due := none }

/-- `ChoreSwitch.async_turn_off` of V2
(`src/custom_components/chore_tracker/switch.py` lines 261-288): identical
control flow, using V2's calculator. -/
def async_turn_off_v2 (now : DT) (s : Sys) : Sys :=
  match calculate_next_due_v2 s.interval now with
  | some t =>
      { s with state := false, last_completed := some now, next_due := some t,
               live := (s.fresh, t) :: cancelUnsub s,
               unsub_timer := some s.fresh, fresh := s.fresh + 1 }
  | none => { s with state := false, last_completed := some now, next_due := none }

/-- Host timer expiry of handle `h`: the host consumes the outstanding timer
and runs `ChoreSwitch._auto_rearm`, which sets the state due and clears
`self._unsub_timer` (both revisions). -/
def fireTimer (h : Nat) (s : Sys) : Sys :=
  if s.live.any (fun p => p.1 = h) then
    { s with live := s.live.filter (fun p => p.1 ≠ h),
             state := true, unsub_timer := none }
  else s

/-- `ChoreSwitch.async_will_remove_from_hass` (both revisions): cancel and
drop the stored timer handle. -/
def async_will_remove_from_hass (s : Sys) : Sys :=
  match s.unsub_timer with
  | some h => { s with live := s.live.filter (fun p => p.1 ≠ h),
                       unsub_timer := none }
  | none => s

/-- `self._interval = data.get("Interval", "1 week")` with the falsy-guard
(`if not self._interval: self._interval = "1 week"`), shared by both
revisions of `_update_from_config`. -/
def configInterval (data : ConfigData) : String :=
  match data.interval with
  | some i => if i = "" then "1 week" else i
  | none => "1 week"

/-- The `Last_Completed` value V1's `_update_from_config` derives from the
config data: the supplied value (parsed when a string), falling back to
`now` when absent, falsy or unparseable. -/
def configLastCompleted (now : DT) (data : ConfigData) : Option DT :=
  match data.last_completed with
  | some v =>
    if v.truthy then
      match v.parse with
      | some t => some t
      | none => some now
    else some now
  | none => some now

/-- The `Next_Due` value V1's `_update_from_config` derives from the config
data: the supplied date anchored to 05:00, `None` when absent, falsy or
unparseable. -/
def configNextDue (data : ConfigData) : Option DT :=
  match data.next_due with
  | some v =>
    if v.truthy then
      match v.parse with
      | some t => some (combine5 (dateOf t))
      | none => none
    else none
  | none => none

/-- `ChoreSwitch._update_from_config` of V1 (`src/switch.py` lines 113-186):
refresh the interval, re-seed `last_completed` and `next_due` from the
config-entry data, then cancel any stored timer and arm one exactly when a
due date is set (else the handle is cleared). -/
def update_from_config_v1 (now : DT) (data : ConfigData) (s : Sys) : Sys :=
  match configNextDue data with
  | some t =>
      { s with interval := configInterval data,
               last_completed := configLastCompleted now data,
               next_due := some t,
               live := (s.fresh, t) :: cancelUnsub s,
               unsub_timer := some s.fresh, fresh := s.fresh + 1 }
  | none =>
      { s with interval := configInterval data,
               last_completed := configLastCompleted now data,
               next_due := none,
               live := cancelUnsub s, unsub_timer := none }

/-- `ChoreSwitch._update_from_config` of V2
(`src/custom_components/chore_tracker/switch.py` lines 197-236): refreshes
only configuration attributes; `Last_Completed`, `Next_Due` and the timer
are deliberately untouched (only the interval matters to later logic). -/
def update_from_config_v2 (data : ConfigData) (s : Sys) : Sys :=
  { s with interval := configInterval data }

/-- `ChoreSwitch.__init__` of V1 (`src/switch.py` lines 28-77): default
state off, `last_completed = now()`, `next_due = None`, then
`_update_from_config(config_entry.data)`.  The entity starts with no timer
and the host with no outstanding wake-ups. -/
def init_v1 (now : DT) (data : ConfigData) : Sys :=
  let s : Sys :=
    { state := false, last_completed := some now, next_due := none,
      interval := "1 week", initial_next_due := none,
      unsub_timer := none, live := [], fresh := 0 }
  update_from_config_v1 now data s

/-- `ChoreSwitch.__init__` of V2
(`src/custom_components/chore_tracker/switch.py` lines 28-120): capture the
one-time `Next_Due` seed from the config (string parse only — a stored
`datetime` raises `TypeError` into the `except` branch), scrub `Next_Due`
and `Last_Completed` out of the stored config data, then standard setup with
`_update_from_config` on the scrubbed data.  Returns the entity state and
the updated config-entry data. -/
def init_v2 (data : ConfigData) : Sys × ConfigData :=
  let initial :=
    match data.next_due with
    | some v => if v.truthy then v.parseStrOnly else none
    | none => none
  let newData : ConfigData := { data with next_due := none, last_completed := none }
  let s : Sys :=
    { state := false, last_completed := none, next_due := none,
      interval := "1 week", initial_next_due := initial,
      unsub_timer := none, live := [], fresh := 0 }
  (update_from_config_v2 newData s, newData)

/-- `ChoreSwitch.async_added_to_hass` of V1 (`src/switch.py` lines 79-111):
when a snapshot exists, load the on/off state, re-parse the persisted
timestamps (a parse failure leaves the field as `__init__` set it), and for
a parsed `Next_Due` cancel any stored timer and arm one at exactly that
timestamp.  No snapshot: nothing happens. -/
def added_to_hass_v1 (snap : Option Snapshot) (s : Sys) : Sys :=
  match snap with
  | none => s
  | some last =>
    match last.attributes with
    | none => { s with state := last.state = "on" }
    | some attrs =>
      let lc : Option DT :=
        if truthyStr attrs.last_completed then
          match fromisoformat (attrs.last_completed.getD "") with
          | some t => some t
          | none => s.last_completed
        else s.last_completed
      if truthyStr attrs.next_due then
        match fromisoformat (attrs.next_due.getD "") with
        | some t =>
            { s with state := last.state = "on", last_completed := lc,
                     next_due := some t,
                     live := (s.fresh, t) :: cancelUnsub s,
                     unsub_timer := some s.fresh, fresh := s.fresh + 1 }
        | none => { s with state := last.state = "on", last_completed := lc }
      else { s with state := last.state = "on", last_completed := lc }

/-- `ChoreSwitch.async_added_to_hass` of V2
(`src/custom_components/chore_tracker/switch.py` lines 122-195).  With a
snapshot: load the on/off state; `Last_Completed` restores verbatim, with
absent/malformed falling back to `now`; `Next_Due` restores verbatim and
re-arms the timer at exactly that timestamp (cancelling any stored handle
first), with absent/malformed becoming `None`.  Without a snapshot
(first run): seed `last_completed = now`, take the captured one-time
`Next_Due` seed if present else compute from the interval, and arm a timer
when a due date resulted. -/
def added_to_hass_v2 (now : DT) (snap : Option Snapshot) (s : Sys) : Sys :=
  match snap with
  | some last =>
    match last.attributes with
    | none =>
        { s with state := last.state = "on", last_completed := some now,
                 next_due := none }
    | some attrs =>
      let lc : Option DT :=
        if truthyStr attrs.last_completed then
          match fromisoformat (attrs.last_completed.getD "") with
          | some t => some t
          | none => some now
        else some now
      if truthyStr attrs.next_due then
        match fromisoformat (attrs.next_due.getD "") with
        | some t =>
            { s with state := last.state = "on", last_completed := lc,
                     next_due := some t,
                     live := (s.fresh, t) :: cancelUnsub s,
                     unsub_timer := some s.fresh, fresh := s.fresh + 1 }
        | none =>
            { s with state := last.state = "on", last_completed := lc,
                     next_due := none }
      else
        { s with state := last.state = "on", last_completed := lc,
                 next_due := none }
  | none =>
    match s.initial_next_due with
    | some t =>
        { s with last_completed := some now, next_due := some t,
                 live := (s.fresh, t) :: s.live,
                 unsub_timer := some s.fresh, fresh := s.fresh + 1 }
    | none =>
      match calculate_next_due_v2 s.interval now with
      | some t =>
          { s with last_completed := some now, next_due := some t,
                   live := (s.fresh, t) :: s.live,
                   unsub_timer := some s.fresh, fresh := s.fresh + 1 }
      | none => { s with last_completed := some now, next_due := none }

/-- One externally triggered event in the life of a registered chore entity
(either revision's handlers; the host serializes delivery). -/
inductive Event
  | turnOn
  | turnOff_v1 (now : DT)
  | turnOff_v2 (now : DT)
  | edit_v1 (now : DT) (data : ConfigData)
  | edit_v2 (data : ConfigData)
  | fire (h : Nat)
  | remove

/-- Event semantics. -/
def step : Event → Sys → Sys
  | .turnOn => async_turn_on
  | .turnOff_v1 now => async_turn_off_v1 now
  | .turnOff_v2 now => async_turn_off_v2 now
  | .edit_v1 now data => update_from_config_v1 now data
  | .edit_v2 data => update_from_config_v2 data
  | .fire h => fireTimer h
  | .remove => async_will_remove_from_hass

/-- States a chore entity can reach: booted through either revision's
`__init__` followed by its `async_added_to_hass`, then any sequence of
events. -/
inductive Reachable : Sys → Prop
  | boot_v1 (now : DT) (data : ConfigData) (snap : Option Snapshot) :
      Reachable (added_to_hass_v1 snap (init_v1 now data))
  | boot_v2 (now : DT) (data : ConfigData) (snap : Option Snapshot) :
      Reachable (added_to_hass_v2 now snap (init_v2 data).1)
  | step (e : Event) (s : Sys) : Reachable s → Reachable (step e s)


/-- The single-timer invariant the spec states for `pending_timer`: at most
one outstanding wake-up, and any outstanding wake-up is the one whose cancel
handle the entity stores. -/
def TimerInv (s : Sys) : Prop :=
  s.live.length ≤ 1 ∧ ∀ p ∈ s.live, s.unsub_timer = some p.1

/-- Written from the spec's words, for comparison with the code: the whole
normalized (trimmed, lowercased) string is `<integer><whitespace?><unit>`
with the unit one of the recognized unit words and nothing following it. -/
def specAcceptedForm (s : String) : Bool :=
  let cs := normInterval s
  let ds := cs.takeWhile Char.isDigit
  let rest := (cs.dropWhile Char.isDigit).dropWhile isPySpace
  !ds.isEmpty
    && ((cs.dropWhile Char.isDigit).takeWhile isPySpace).length ≤ 1
    && unitAlts.contains (String.mk rest)

/-- What the code actually accepts, stated declaratively: the normalized
string BEGINS WITH an integer, optional whitespace and a recognized unit
word; anything may follow. -/
def PrefixAccepted (s : String) : Prop :=
  ∃ ds ws u rest, normInterval s = ds ++ ws ++ u.data ++ rest ∧ ds ≠ []
    ∧ (∀ c ∈ ds, c.isDigit = true) ∧ (∀ c ∈ ws, isPySpace c = true)
    ∧ u ∈ unitAlts

/-- A concrete freshly booted V2 chore with interval "1 week", created at
time 0 with no prior snapshot: its first wake-up (handle 0) is armed for
`622800` (7 days after epoch, at 05:00). -/
def bootedChore : Sys :=
  added_to_hass_v2 0 none (init_v2 ⟨some "1 week", none, none⟩).1

/-! ## Helper lemmas -/

/-- The only difference between the two calculators is V2's early return on
an empty interval, and the shared body also rejects the empty string. -/
lemma calc_agree (interval : String) (start : DT) :
    calculate_next_due_v1 interval start = calculate_next_due_v2 interval start := by
  unfold calculate_next_due_v1 calculate_next_due_v2
  by_cases h : interval = ""
  · subst h
    rfl
  · simp [h]

lemma dateOf_add_days (t : DT) (k : Nat) :
    dateOf (t + k * 86400) = dateOf t + k := by
  unfold dateOf
  exact Nat.add_mul_div_right t k (by norm_num)

/-- The calculator, with the day arithmetic pushed to calendar-date level:
each unit adds a fixed number of days to the start's date, then anchors to
05:00. -/
lemma calcCore_eq (interval : String) (start : DT) :
    calcNextDueCore interval start =
      match reMatchInterval (normInterval interval) with
      | none => none
      | some (num, unit) =>
        if pyIn "day" unit then some (combine5 (dateOf start + num))
        else if pyIn "week" unit then some (combine5 (dateOf start + num * 7))
        else if pyIn "month" unit then some (combine5 (dateOf start + 30 * num))
        else if pyIn "year" unit then some (combine5 (dateOf start + 365 * num))
        else none := by
  unfold calcNextDueCore
  cases hm : reMatchInterval (normInterval interval) with
  | none => rfl
  | some p =>
    obtain ⟨num, unit⟩ := p
    simp only
    split_ifs
    · rw [Option.map_some', dateOf_add_days]
    · rw [Option.map_some', show num * (7 * 86400) = num * 7 * 86400 from by ring,
        dateOf_add_days]
    · rw [Option.map_some', dateOf_add_days]
    · rw [Option.map_some', dateOf_add_days]
    · rfl

lemma reMatch_empty_ne (s : String) (n : Nat) (u : String)
    (h : reMatchInterval (normInterval s) = some (n, u)) : s ≠ "" := by
  intro he
  subst he
  rw [show reMatchInterval (normInterval "") = none from rfl] at h
  simp at h

/-! ## C10 -/

/-- C10: for every start timestamp and every non-empty interval string, the
two source revisions' due-date calculators return the same result. -/
theorem calc_revisions_agree (interval : String) (start : DT)
    (_hne : interval ≠ "") :
    calculate_next_due_v1 interval start = calculate_next_due_v2 interval start :=
  calc_agree interval start

theorem calc_revisions_agree_witness :
    "1 week" ≠ "" ∧
      calculate_next_due_v1 "1 week" 1000 = calculate_next_due_v2 "1 week" 1000 :=
  ⟨by decide, calc_revisions_agree "1 week" 1000 (by decide)⟩

/-! ## C4 -/

/-- C4: for every start `T` and every interval the regex parses with count
`N`, the result is 05:00 on the date `N` / `7N` / `30N` / `365N` days after
`T`'s calendar date according to the unit; in particular "2 weeks" yields
`T + 14` days, at 05:00. -/
theorem calc_unit_offsets (s : String) (start : DT) (n : Nat) (u : String)
    (h : reMatchInterval (normInterval s) = some (n, u)) :
    ((u = "day" ∨ u = "days") →
        calculate_next_due_v2 s start = some (combine5 (dateOf start + n)))
  ∧ ((u = "week" ∨ u = "weeks") →
        calculate_next_due_v2 s start = some (combine5 (dateOf start + n * 7)))
  ∧ ((u = "month" ∨ u = "months") →
        calculate_next_due_v2 s start = some (combine5 (dateOf start + 30 * n)))
  ∧ ((u = "year" ∨ u = "years") →
        calculate_next_due_v2 s start = some (combine5 (dateOf start + 365 * n)))
  ∧ calculate_next_due_v2 "2 weeks" start = some (combine5 (dateOf start + 14)) := by
  have hne : s ≠ "" := reMatch_empty_ne s n u h
  have hbase : calculate_next_due_v2 s start =
      (if pyIn "day" u then some (combine5 (dateOf start + n))
       else if pyIn "week" u then some (combine5 (dateOf start + n * 7))
       else if pyIn "month" u then some (combine5 (dateOf start + 30 * n))
       else if pyIn "year" u then some (combine5 (dateOf start + 365 * n))
       else none) := by
    unfold calculate_next_due_v2
    rw [if_neg hne, calcCore_eq, h]
  have h2w : calculate_next_due_v2 "2 weeks" start
      = some (combine5 (dateOf start + 14)) := by
    unfold calculate_next_due_v2
    rw [if_neg (by decide), calcCore_eq,
      show reMatchInterval (normInterval "2 weeks") = some (2, "week") from rfl]
    simp only [show pyIn "day" "week" = false from rfl,
      show pyIn "week" "week" = true from rfl, if_false, if_true,
      Bool.false_eq_true]
  refine ⟨?_, ?_, ?_, ?_, h2w⟩
  · rintro (rfl | rfl) <;> rw [hbase] <;> rfl
  · rintro (rfl | rfl) <;> rw [hbase] <;> rfl
  · rintro (rfl | rfl) <;> rw [hbase] <;> rfl
  · rintro (rfl | rfl) <;> rw [hbase] <;> rfl

theorem calc_unit_offsets_witness :
    reMatchInterval (normInterval "2 weeks") = some (2, "week") ∧
      calculate_next_due_v2 "2 weeks" 1000 = some (combine5 (dateOf 1000 + 2 * 7)) :=
  ⟨rfl, (calc_unit_offsets "2 weeks" 1000 2 "week" rfl).2.1 (Or.inl rfl)⟩

/-! ## C9 -/

/-- C9: for a valid interval spec the result depends on the start only
through its calendar date — two starts on the same date give the same
anchored due date. -/
theorem calc_anchored_per_date (s : String) (t1 t2 : DT)
    (hv : (reMatchInterval (normInterval s)).isSome = true)
    (hd : dateOf t1 = dateOf t2) :
    calculate_next_due_v2 s t1 = calculate_next_due_v2 s t2 := by
  obtain ⟨⟨n, u⟩, hm⟩ := Option.isSome_iff_exists.mp hv
  have hne : s ≠ "" := reMatch_empty_ne s n u hm
  unfold calculate_next_due_v2
  rw [if_neg hne, if_neg hne, calcCore_eq, calcCore_eq, hm]
  simp only [hd]

theorem calc_anchored_per_date_witness :
    (reMatchInterval (normInterval "1 week")).isSome = true
  ∧ dateOf 3600 = dateOf 7200
  ∧ calculate_next_due_v2 "1 week" 3600 = calculate_next_due_v2 "1 week" 7200 :=
  ⟨rfl, rfl, calc_anchored_per_date "1 week" 3600 7200 rfl rfl⟩

/-! ## C2: characterizing exactly which interval strings are rejected -/

lemma isPrefixOf_append_self (l t : List Char) : l.isPrefixOf (l ++ t) = true := by
  induction l with
  | nil => simp [List.isPrefixOf]
  | cons a l ih => simp [List.isPrefixOf, ih]

lemma exists_append_of_isPrefixOf {l1 l2 : List Char}
    (h : l1.isPrefixOf l2 = true) : ∃ t, l1 ++ t = l2 := by
  induction l1 generalizing l2 with
  | nil => exact ⟨l2, rfl⟩
  | cons a l ih =>
    cases l2 with
    | nil => simp [List.isPrefixOf] at h
    | cons b l2 =>
      simp only [List.isPrefixOf, Bool.and_eq_true, beq_iff_eq] at h
      obtain ⟨rfl, h2⟩ := h
      obtain ⟨t, ht⟩ := ih h2
      exact ⟨t, by rw [List.cons_append, ht]⟩

lemma takeWhile_append_all (p : Char → Bool) (pre post : List Char)
    (hpre : ∀ c ∈ pre, p c = true)
    (hpost : ∀ c, post.head? = some c → p c = false) :
    (pre ++ post).takeWhile p = pre ∧ (pre ++ post).dropWhile p = post := by
  induction pre with
  | nil =>
    simp only [List.nil_append]
    cases post with
    | nil => exact ⟨rfl, rfl⟩
    | cons c cs =>
      have hc := hpost c rfl
      exact ⟨by simp [List.takeWhile_cons, hc], by simp [List.dropWhile_cons, hc]⟩
  | cons a pre ih =>
    have ha : p a = true := hpre a (List.mem_cons_self a pre)
    have ih' := ih fun c hc => hpre c (List.mem_cons_of_mem a hc)
    constructor
    · simp [List.takeWhile_cons, ha, ih'.1]
    · simp [List.dropWhile_cons, ha, ih'.2]

lemma pySpace_not_digit (c : Char) (h : isPySpace c = true) :
    c.isDigit = false := by
  simp only [isPySpace, Bool.or_eq_true, decide_eq_true_eq] at h
  rcases h with ((((h | h) | h) | h) | h) | h <;> subst h <;> decide

lemma unitAlts_head (u : String) (hu : u ∈ unitAlts) :
    ∀ c, u.data.head? = some c → c.isDigit = false ∧ isPySpace c = false := by
  simp only [unitAlts, List.mem_cons, List.not_mem_nil, or_false] at hu
  rcases hu with rfl | rfl | rfl | rfl | rfl | rfl | rfl | rfl <;>
    (intro c hc; injection hc with hc; subst hc; exact ⟨rfl, rfl⟩)

lemma unitAlts_ne_nil (u : String) (hu : u ∈ unitAlts) : u.data ≠ [] := by
  simp only [unitAlts, List.mem_cons, List.not_mem_nil, or_false] at hu
  rcases hu with rfl | rfl | rfl | rfl | rfl | rfl | rfl | rfl <;> simp

/-- The matcher succeeds exactly on strings that begin (after normalizing)
with digits, optional whitespace and one of the unit words. -/
lemma reMatch_isSome_iff (s : String) :
    (reMatchInterval (normInterval s)).isSome = true ↔ PrefixAccepted s := by
  constructor
  · intro h
    unfold reMatchInterval at h
    by_cases he : ((normInterval s).takeWhile Char.isDigit).isEmpty
    · rw [if_pos he] at h
      cases h
    · rw [if_neg he] at h
      cases hf : unitAlts.find? (fun a =>
          a.data.isPrefixOf (((normInterval s).dropWhile Char.isDigit).dropWhile isPySpace)) with
      | none => rw [hf] at h; cases h
      | some u =>
        have hu : u ∈ unitAlts := List.mem_of_find?_eq_some hf
        have hp := List.find?_some hf
        obtain ⟨rest, hrest⟩ := exists_append_of_isPrefixOf hp
        refine ⟨(normInterval s).takeWhile Char.isDigit,
          ((normInterval s).dropWhile Char.isDigit).takeWhile isPySpace,
          u, rest, ?_, ?_, ?_, ?_, hu⟩
        · conv_lhs => rw [← List.takeWhile_append_dropWhile Char.isDigit (normInterval s)]
          conv_lhs => rw [← List.takeWhile_append_dropWhile isPySpace
            ((normInterval s).dropWhile Char.isDigit)]
          rw [← hrest]
          simp [List.append_assoc]
        · intro hnil
          exact he (by rw [hnil]; rfl)
        · exact fun c hc => List.mem_takeWhile_imp hc
        · exact fun c hc => List.mem_takeWhile_imp hc
  · rintro ⟨ds, ws, u, rest, heq, hne, hdig, hsp, hu⟩
    have hu1 : u.data ≠ [] := unitAlts_ne_nil u hu
    have hu2 := unitAlts_head u hu
    have heq2 : normInterval s = ds ++ (ws ++ (u.data ++ rest)) := by
      rw [heq]
      simp [List.append_assoc]
    have hhead : ∀ c, (ws ++ (u.data ++ rest)).head? = some c → c.isDigit = false := by
      intro c hc
      cases ws with
      | cons w ws2 =>
        rw [List.cons_append, List.head?_cons] at hc
        injection hc with hc
        rw [← hc]
        exact pySpace_not_digit w (hsp w (List.mem_cons_self w ws2))
      | nil =>
        rw [List.nil_append] at hc
        cases hd : u.data with
        | nil => exact absurd hd hu1
        | cons a l =>
          rw [hd, List.cons_append, List.head?_cons] at hc
          injection hc with hc
          rw [← hc]
          exact (hu2 a (by rw [hd]; rfl)).1
    have hsplit := takeWhile_append_all Char.isDigit ds (ws ++ (u.data ++ rest)) hdig hhead
    have hhead2 : ∀ c, (u.data ++ rest).head? = some c → isPySpace c = false := by
      intro c hc
      cases hd : u.data with
      | nil => exact absurd hd hu1
      | cons a l =>
        rw [hd, List.cons_append, List.head?_cons] at hc
        injection hc with hc
        rw [← hc]
        exact (hu2 a (by rw [hd]; rfl)).2
    have hsplit2 := takeWhile_append_all isPySpace ws (u.data ++ rest) hsp hhead2
    have hpre : u.data.isPrefixOf (u.data ++ rest) = true :=
      isPrefixOf_append_self u.data rest
    unfold reMatchInterval
    rw [heq2, hsplit.1, hsplit.2, hsplit2.2]
    rw [if_neg (by cases ds with | nil => exact absurd rfl hne | cons a l => simp)]
    have hfind : (unitAlts.find? (fun a =>
        a.data.isPrefixOf (u.data ++ rest))).isSome = true :=
      List.find?_isSome.mpr ⟨u, hu, hpre⟩
    obtain ⟨u2, hu2f⟩ := Option.isSome_iff_exists.mp hfind
    rw [hu2f]
    rfl

lemma reMatch_unit_mem (cs : List Char) (n : Nat) (u : String)
    (h : reMatchInterval cs = some (n, u)) : u ∈ unitAlts := by
  unfold reMatchInterval at h
  by_cases he : (cs.takeWhile Char.isDigit).isEmpty
  · rw [if_pos he] at h
    cases h
  · rw [if_neg he] at h
    cases hf : unitAlts.find? (fun a =>
        a.data.isPrefixOf ((cs.dropWhile Char.isDigit).dropWhile isPySpace)) with
    | none => rw [hf] at h; cases h
    | some u2 =>
      rw [hf] at h
      injection h with h
      have hu2 : u2 = u := congrArg Prod.snd h
      rw [← hu2]
      exact List.mem_of_find?_eq_some hf

/-- Every unit word the matcher can return selects a branch of the
`"day" in unit` / `"week" in unit` / ... chain, so a successful match always
produces a timestamp. -/
lemma unit_chain_isSome (u : String) (hu : u ∈ unitAlts) (a b c d : DT) :
    (if pyIn "day" u then some a
     else if pyIn "week" u then some b
     else if pyIn "month" u then some c
     else if pyIn "year" u then some d
     else (none : Option DT)).isSome = true := by
  simp only [unitAlts, List.mem_cons, List.not_mem_nil, or_false] at hu
  rcases hu with rfl | rfl | rfl | rfl | rfl | rfl | rfl | rfl <;> rfl

/-! ## C2 -/

/-- C2 counterexample: "1 dayz" is not of the spec's accepted form (its unit
word "dayz" is not recognized), yet the calculator accepts it and returns
1 day after the epoch at 05:00 — `re.match` is anchored at the start only,
so it consumes the "day" prefix of "dayz" and ignores the remainder. -/
theorem calc_trailing_garbage_cex :
    specAcceptedForm "1 dayz" = false
  ∧ calculate_next_due_v2 "1 dayz" 0 = some 104400 := ⟨rfl, rfl⟩

/-- C2 amended: the calculator returns `None` exactly for the strings whose
normalized form does not BEGIN with `<integer><whitespace*><unit-word>`
(equivalently, it returns a timestamp for every string with such a prefix):
trailing characters after the unit word are ignored, not rejected, so
strings such as "1 dayz" or "2 weeks holiday" are accepted.  It never raises
(it is a total function by construction). -/
theorem calc_none_iff_unmatched (s : String) (start : DT) :
    calculate_next_due_v2 s start = none ↔ ¬ PrefixAccepted s := by
  rw [← reMatch_isSome_iff]
  constructor
  · intro h hsome
    obtain ⟨⟨n, u⟩, hm⟩ := Option.isSome_iff_exists.mp hsome
    have hne : s ≠ "" := reMatch_empty_ne s n u hm
    have hbase : calculate_next_due_v2 s start =
        (if pyIn "day" u then some (combine5 (dateOf start + n))
         else if pyIn "week" u then some (combine5 (dateOf start + n * 7))
         else if pyIn "month" u then some (combine5 (dateOf start + 30 * n))
         else if pyIn "year" u then some (combine5 (dateOf start + 365 * n))
         else none) := by
      unfold calculate_next_due_v2
      rw [if_neg hne, calcCore_eq, hm]
    have hmem := reMatch_unit_mem (normInterval s) n u hm
    have hsome2 := unit_chain_isSome u hmem (combine5 (dateOf start + n))
      (combine5 (dateOf start + n * 7)) (combine5 (dateOf start + 30 * n))
      (combine5 (dateOf start + 365 * n))
    rw [← hbase, h] at hsome2
    cases hsome2
  · intro h
    by_cases hne : s = ""
    · rw [hne]
      rfl
    · unfold calculate_next_due_v2
      rw [if_neg hne, calcCore_eq]
      cases hm : reMatchInterval (normInterval s) with
      | none => rfl
      | some p =>
        exact absurd (by rw [hm]; rfl) h

/-! ## C1 -/

/-- C1 counterexample: mark-complete with an unparseable interval does NOT
cancel a pending timer, because cancellation sits inside the
`if self._next_due:` scheduling branch.  A freshly booted chore (wake-up
handle 0 armed for 622800) whose interval is edited to "garbage" and then
completed at time 17 still has handle 0 outstanding afterwards, with no due
date set. -/
theorem turn_off_unparseable_keeps_timer_cex :
    (async_turn_off_v2 17 (update_from_config_v2
        ⟨some "garbage", none, none⟩ bootedChore)).live = [(0, 622800)]
  ∧ (async_turn_off_v2 17 (update_from_config_v2
        ⟨some "garbage", none, none⟩ bootedChore)).unsub_timer = some 0
  ∧ (async_turn_off_v2 17 (update_from_config_v2
        ⟨some "garbage", none, none⟩ bootedChore)).next_due = none :=
  ⟨rfl, rfl, rfl⟩

/-- C1 amended: mark-complete (either revision — the two agree) sets
`last_completed` to now, `next_due` to the calculator's result, and leaves
the chore NOT_DUE.  When `next_due` is set, the pending timer is cancelled
and a wake-up armed at `next_due`; when `next_due` is `None`, no wake-up is
scheduled and a previously pending timer is left armed (it is NOT
cancelled). -/
theorem turn_off_mark_complete (now : DT) (s : Sys) :
    (async_turn_off_v2 now s).state = false
  ∧ (async_turn_off_v2 now s).last_completed = some now
  ∧ (async_turn_off_v2 now s).next_due = calculate_next_due_v2 s.interval now
  ∧ (∀ t, calculate_next_due_v2 s.interval now = some t →
        (async_turn_off_v2 now s).live = (s.fresh, t) :: cancelUnsub s
      ∧ (async_turn_off_v2 now s).unsub_timer = some s.fresh)
  ∧ (calculate_next_due_v2 s.interval now = none →
        (async_turn_off_v2 now s).live = s.live
      ∧ (async_turn_off_v2 now s).unsub_timer = s.unsub_timer)
  ∧ async_turn_off_v1 now s = async_turn_off_v2 now s := by
  have hv : async_turn_off_v1 now s = async_turn_off_v2 now s := by
    unfold async_turn_off_v1 async_turn_off_v2
    rw [calc_agree]
  cases hm : calculate_next_due_v2 s.interval now with
  | some t =>
    refine ⟨?_, ?_, ?_, ?_, ?_, hv⟩
    · unfold async_turn_off_v2; rw [hm]
    · unfold async_turn_off_v2; rw [hm]
    · unfold async_turn_off_v2; rw [hm]
    · intro t2 h2
      injection h2 with h2
      subst h2
      constructor
      · unfold async_turn_off_v2; rw [hm]
      · unfold async_turn_off_v2; rw [hm]
    · intro h2
      cases h2
  | none =>
    refine ⟨?_, ?_, ?_, ?_, ?_, hv⟩
    · unfold async_turn_off_v2; rw [hm]
    · unfold async_turn_off_v2; rw [hm]
    · unfold async_turn_off_v2; rw [hm]
    · intro t2 h2
      cases h2
    · intro h2
      constructor
      · unfold async_turn_off_v2; rw [hm]
      · unfold async_turn_off_v2; rw [hm]

theorem turn_off_mark_complete_witness :
    (async_turn_off_v2 0 ⟨true, none, none, "1 week", none, none, [], 0⟩).live
      = [(0, 622800)]
  ∧ (async_turn_off_v2 0 ⟨true, none, none, "1 week", none, none, [], 0⟩).state
      = false := by
  have h := turn_off_mark_complete 0 ⟨true, none, none, "1 week", none, none, [], 0⟩
  exact ⟨(h.2.2.2.1 622800 rfl).1, h.1⟩

/-! ## C3 -/

lemma cancelUnsub_eq_nil (s : Sys) (h : TimerInv s) : cancelUnsub s = [] := by
  obtain ⟨hlen, hall⟩ := h
  unfold cancelUnsub
  cases hu : s.unsub_timer with
  | none =>
    cases hl : s.live with
    | nil => rfl
    | cons p l =>
      have hp := hall p (by rw [hl]; exact List.mem_cons_self p l)
      rw [hu] at hp
      cases hp
  | some h0 =>
    apply List.eq_nil_iff_forall_not_mem.mpr
    intro p hp
    have hp2 := List.mem_filter.mp hp
    have hh := hall p hp2.1
    rw [hu] at hh
    injection hh with hh
    have hd := hp2.2
    simp only [decide_eq_true_eq] at hd
    exact hd hh.symm

/-- The V1 config-edit result, field by field, as a function of the due date
derived from the config data. -/
lemma upd_v1_parts (now : DT) (data : ConfigData) (s : Sys) :
    (update_from_config_v1 now data s).next_due = configNextDue data
  ∧ (update_from_config_v1 now data s).live
      = (match configNextDue data with
         | some t => (s.fresh, t) :: cancelUnsub s
         | none => cancelUnsub s)
  ∧ (update_from_config_v1 now data s).fresh
      = (match configNextDue data with
         | some _ => s.fresh + 1
         | none => s.fresh)
  ∧ (update_from_config_v1 now data s).unsub_timer
      = (match configNextDue data with
         | some _ => some s.fresh
         | none => none) := by
  cases hn : configNextDue data <;>
    (unfold update_from_config_v1; rw [hn]; exact ⟨rfl, rfl, rfl, rfl⟩)

/-- C3 counterexample: in revision V2 a config/interval edit does NOT
reschedule anything.  Editing the freshly booted chore's interval to
"3 days" leaves the old wake-up (handle 0, armed for the "1 week" due time
622800) untouched and the due date unrecomputed, and a second
reconfiguration to "2 weeks" still leaves that same original timer armed —
the earlier timer is never cancelled because no new one is ever armed by an
edit. -/
theorem edit_leaves_timer_cex :
    (update_from_config_v2 ⟨some "3 days", none, none⟩ bootedChore).live
      = [(0, 622800)]
  ∧ (update_from_config_v2 ⟨some "3 days", none, none⟩ bootedChore).unsub_timer
      = some 0
  ∧ (update_from_config_v2 ⟨some "3 days", none, none⟩ bootedChore).next_due
      = some 622800
  ∧ (update_from_config_v2 ⟨some "2 weeks", none, none⟩
      (update_from_config_v2 ⟨some "3 days", none, none⟩ bootedChore)).live
      = [(0, 622800)] :=
  ⟨rfl, rfl, rfl, rfl⟩

/-- C3 amended: edits never flip the toggle in either revision.  In V2 an
edit refreshes only configuration attributes: due date, timers and
completion state are untouched (no rescheduling happens at all).  In V1 an
edit re-seeds the due date from the config data — the supplied date
anchored to 05:00 when one is present and parseable, `None` otherwise,
never recomputed from the interval — cancels the stored timer, and arms a
new one exactly when the due date is set; hence after two consecutive V1
reconfigurations that both supply due dates, only the second edit's timer
remains armed and the first edit's timer has been cancelled. -/
theorem config_edit_behavior :
    (∀ data s, (update_from_config_v2 data s).state = s.state
      ∧ (update_from_config_v2 data s).next_due = s.next_due
      ∧ (update_from_config_v2 data s).live = s.live
      ∧ (update_from_config_v2 data s).unsub_timer = s.unsub_timer
      ∧ (update_from_config_v2 data s).last_completed = s.last_completed)
  ∧ (∀ now data s, (update_from_config_v1 now data s).state = s.state)
  ∧ (∀ now data s v t, data.next_due = some v → v.truthy = true →
        v.parse = some t →
        (update_from_config_v1 now data s).next_due = some (combine5 (dateOf t)))
  ∧ (∀ now1 now2 d1 d2 s t1 t2, TimerInv s →
        (update_from_config_v1 now1 d1 s).next_due = some t1 →
        (update_from_config_v1 now2 d2 (update_from_config_v1 now1 d1 s)).next_due
          = some t2 →
          (update_from_config_v1 now1 d1 s).live = [(s.fresh, t1)]
        ∧ (update_from_config_v1 now2 d2 (update_from_config_v1 now1 d1 s)).live
            = [(s.fresh + 1, t2)]
        ∧ (s.fresh, t1) ∉ (update_from_config_v1 now2 d2
            (update_from_config_v1 now1 d1 s)).live) := by
  refine ⟨?_, ?_, ?_, ?_⟩
  · intro data s
    exact ⟨rfl, rfl, rfl, rfl, rfl⟩
  · intro now data s
    unfold update_from_config_v1
    split <;> rfl
  · intro now data s v t hv htr hp
    have hn : configNextDue data = some (combine5 (dateOf t)) := by
      simp [configNextDue, hv, htr, hp]
    unfold update_from_config_v1
    rw [hn]
  · intro now1 now2 d1 d2 s t1 t2 hInv h1 h2
    have hc1 : cancelUnsub s = [] := cancelUnsub_eq_nil s hInv
    have p1 := upd_v1_parts now1 d1 s
    have hn1 : configNextDue d1 = some t1 := by rw [← p1.1]; exact h1
    have p2 := upd_v1_parts now2 d2 (update_from_config_v1 now1 d1 s)
    have hn2 : configNextDue d2 = some t2 := by rw [← p2.1]; exact h2
    have hlive1 : (update_from_config_v1 now1 d1 s).live = [(s.fresh, t1)] := by
      rw [p1.2.1, hn1, hc1]
    have hfresh1 : (update_from_config_v1 now1 d1 s).fresh = s.fresh + 1 := by
      rw [p1.2.2.1, hn1]
    have hunsub1 : (update_from_config_v1 now1 d1 s).unsub_timer = some s.fresh := by
      rw [p1.2.2.2, hn1]
    have hc2 : cancelUnsub (update_from_config_v1 now1 d1 s) = [] := by
      unfold cancelUnsub
      rw [hunsub1, hlive1]
      simp
    have hlive2 : (update_from_config_v1 now2 d2
        (update_from_config_v1 now1 d1 s)).live = [(s.fresh + 1, t2)] := by
      rw [p2.2.1, hn2, hc2, hfresh1]
    refine ⟨hlive1, hlive2, ?_⟩
    rw [hlive2]
    intro hmem
    simp only [List.mem_singleton, Prod.mk.injEq] at hmem
    omega

theorem config_edit_behavior_witness :
    (update_from_config_v1 0 ⟨some "1 week", none, some (.dt 100)⟩
        ⟨false, none, none, "1 week", none, none, [], 0⟩).live = [(0, 18000)]
  ∧ (update_from_config_v1 0 ⟨some "2 weeks", none, some (.dt 90000)⟩
        (update_from_config_v1 0 ⟨some "1 week", none, some (.dt 100)⟩
          ⟨false, none, none, "1 week", none, none, [], 0⟩)).live
      = [(1, 104400)] := by
  have h := config_edit_behavior.2.2.2 0 0 ⟨some "1 week", none, some (.dt 100)⟩
    ⟨some "2 weeks", none, some (.dt 90000)⟩
    ⟨false, none, none, "1 week", none, none, [], 0⟩ 18000 104400
    ⟨by simp, by simp⟩ rfl rfl
  exact ⟨h.1, h.2.1⟩

/-! ## C8 -/

/-- C8 counterexample: in revision V1 the config entry keeps `Next_Due` and
every edit re-applies it — an edit whose data carries `Next_Due = 90000`
sets the chore's due date to 104400 (that date anchored to 05:00), taken
straight from the config entry. -/
theorem edit_reapplies_config_due_cex :
    (update_from_config_v1 0 ⟨some "1 week", none, some (.dt 90000)⟩
        ⟨false, none, none, "1 week", none, none, [], 0⟩).next_due
      = some 104400 := rfl

/-- C8 amended: the one-time-seed discipline holds in revision V2 only —
its constructor scrubs `Next_Due` (and `Last_Completed`) from the stored
config, and V2 edits never touch the due date; revision V1 leaves the field
in config and every V1 edit re-applies the supplied due date (anchored to
05:00). -/
theorem next_due_one_time_seed (data : ConfigData) :
    (init_v2 data).2.next_due = none
  ∧ (init_v2 data).2.last_completed = none
  ∧ (∀ d s, (update_from_config_v2 d s).next_due = s.next_due)
  ∧ (∀ now d s v t, d.next_due = some v → v.truthy = true → v.parse = some t →
       (update_from_config_v1 now d s).next_due = some (combine5 (dateOf t))) := by
  refine ⟨rfl, rfl, fun d s => rfl, ?_⟩
  intro now d s v t hv htr hp
  have hn : configNextDue d = some (combine5 (dateOf t)) := by
    simp [configNextDue, hv, htr, hp]
  unfold update_from_config_v1
  rw [hn]

theorem next_due_one_time_seed_witness :
    (init_v2 ⟨some "1 week", none, some (.str "2024-01-02")⟩).2.next_due = none
  ∧ (update_from_config_v1 0 ⟨some "2 weeks", none, some (.dt 90000)⟩
      ⟨false, none, none, "1 week", none, none, [], 0⟩).next_due
      = some 104400 := by
  have h := next_due_one_time_seed ⟨some "1 week", none, some (.str "2024-01-02")⟩
  refine ⟨h.1, ?_⟩
  have h2 := h.2.2.2 0 ⟨some "2 weeks", none, some (.dt 90000)⟩
    ⟨false, none, none, "1 week", none, none, [], 0⟩ (.dt 90000) 90000 rfl rfl rfl
  exact h2.trans (by rfl)

/-! ## C5 -/

lemma cancelUnsub_nil_of_live_nil (s : Sys) (h : s.live = []) :
    cancelUnsub s = [] := by
  unfold cancelUnsub
  rw [h]
  cases hu : s.unsub_timer <;> rfl

/-- C5: restoring a snapshot with well-formed timestamp strings loads the
toggle state, `last_completed` and `next_due` verbatim ("off" gives
NOT_DUE), and arms a wake-up for exactly the restored `next_due` timestamp
(a fresh handle), without recomputing anything from the interval (the
interval in `s` is arbitrary) and with no constraint that the timestamp be
in the future.  Holds for both revisions. -/
theorem restore_verbatim (now : DT) (st lcs nds : String) (t1 t2 : DT) (s : Sys)
    (hlc : fromisoformat lcs = some t1) (hnd : fromisoformat nds = some t2)
    (hInv : TimerInv s) :
    (added_to_hass_v2 now (some ⟨st, some ⟨some lcs, some nds⟩⟩) s).state
      = decide (st = "on")
  ∧ (added_to_hass_v2 now (some ⟨st, some ⟨some lcs, some nds⟩⟩) s).last_completed
      = some t1
  ∧ (added_to_hass_v2 now (some ⟨st, some ⟨some lcs, some nds⟩⟩) s).next_due
      = some t2
  ∧ (added_to_hass_v2 now (some ⟨st, some ⟨some lcs, some nds⟩⟩) s).live
      = [(s.fresh, t2)]
  ∧ (added_to_hass_v2 now (some ⟨st, some ⟨some lcs, some nds⟩⟩) s).unsub_timer
      = some s.fresh
  ∧ (added_to_hass_v1 (some ⟨st, some ⟨some lcs, some nds⟩⟩) s).state
      = decide (st = "on")
  ∧ (added_to_hass_v1 (some ⟨st, some ⟨some lcs, some nds⟩⟩) s).last_completed
      = some t1
  ∧ (added_to_hass_v1 (some ⟨st, some ⟨some lcs, some nds⟩⟩) s).next_due
      = some t2
  ∧ (added_to_hass_v1 (some ⟨st, some ⟨some lcs, some nds⟩⟩) s).live
      = [(s.fresh, t2)] := by
  have hlne : lcs ≠ "" := by intro h; rw [h] at hlc; cases hlc
  have hnne : nds ≠ "" := by intro h; rw [h] at hnd; cases hnd
  have hcs : cancelUnsub s = [] := cancelUnsub_eq_nil s hInv
  refine ⟨?_, ?_, ?_, ?_, ?_, ?_, ?_, ?_, ?_⟩ <;>
    simp [added_to_hass_v2, added_to_hass_v1, truthyStr, hlne, hnne, hlc, hnd, hcs]

theorem restore_verbatim_witness :
    (added_to_hass_v2 5 (some ⟨"off", some ⟨some "2024-01-01T10:00:00",
        some "2024-01-08T05:00:00"⟩⟩)
      ⟨false, none, none, "1 week", none, none, [], 0⟩).next_due
      = some 63840286800
  ∧ (added_to_hass_v2 5 (some ⟨"off", some ⟨some "2024-01-01T10:00:00",
        some "2024-01-08T05:00:00"⟩⟩)
      ⟨false, none, none, "1 week", none, none, [], 0⟩).live
      = [(0, 63840286800)]
  ∧ (added_to_hass_v2 5 (some ⟨"off", some ⟨some "2024-01-01T10:00:00",
        some "2024-01-08T05:00:00"⟩⟩)
      ⟨false, none, none, "1 week", none, none, [], 0⟩).state = false := by
  have h := restore_verbatim 5 "off" "2024-01-01T10:00:00" "2024-01-08T05:00:00"
    63839700000 63840286800 ⟨false, none, none, "1 week", none, none, [], 0⟩
    rfl rfl ⟨by simp, by simp⟩
  exact ⟨h.2.2.1, h.2.2.2.1, by rw [h.1]; rfl⟩

/-! ## C6 -/

/-- C6 counterexample, both revisions.  In V2 a malformed persisted
`Next_Due` ("garbage") with a perfectly valid interval "1 week" restores to
`next_due = None` — it is NOT recomputed from the interval (the first-time
path at time 0 would give 622800).  In V1 the failed assignment keeps what
`__init__` seeded from the config entry: with config `Next_Due = 90000` the
chore keeps the config-seeded due date 104400 and its already-armed timer
(handle 0), so the malformed field is not treated as absent there either. -/
theorem restore_malformed_cex :
    (added_to_hass_v2 0 (some ⟨"off", some ⟨some "2024-01-01T10:00:00",
        some "garbage"⟩⟩)
      ⟨false, none, none, "1 week", none, none, [], 0⟩).next_due = none
  ∧ calculate_next_due_v2 "1 week" 0 = some 622800
  ∧ (added_to_hass_v1 (some ⟨"off", some ⟨some "2024-01-01T10:00:00",
        some "garbage"⟩⟩)
      (init_v1 0 ⟨some "1 week", none, some (.dt 90000)⟩)).next_due = some 104400
  ∧ (added_to_hass_v1 (some ⟨"off", some ⟨some "2024-01-01T10:00:00",
        some "garbage"⟩⟩)
      (init_v1 0 ⟨some "1 week", none, some (.dt 90000)⟩)).live = [(0, 104400)] :=
  ⟨rfl, rfl, rfl, rfl⟩

/-- C6 amended: a malformed persisted timestamp is never fatal and the rest
of the snapshot is still honored, but the fallback is revision-specific and
only partly "first-time".  In V2, a malformed `Last_Completed` is re-seeded
to `now` (its first-time path) while a malformed `Next_Due` simply becomes
`None`, with no wake-up armed and NO recomputation from the interval.  In
V1 the `except` branch runs before any assignment, so a malformed field
keeps whatever `__init__` seeded from the config entry — in particular a
malformed `Next_Due` keeps the prior due date together with any
already-armed timer, and is not treated as absent at all. -/
theorem restore_malformed_fallback (now : DT) (st lcs nds nds2 : String)
    (t2 : DT) (s : Sys)
    (hl : fromisoformat lcs = none) (hl0 : lcs ≠ "")
    (hn : fromisoformat nds = none) (hn0 : nds ≠ "")
    (hnd2 : fromisoformat nds2 = some t2) :
    (added_to_hass_v2 now (some ⟨st, some ⟨some lcs, some nds2⟩⟩) s).last_completed
      = some now
  ∧ (added_to_hass_v2 now (some ⟨st, some ⟨some lcs, some nds2⟩⟩) s).next_due
      = some t2
  ∧ (added_to_hass_v2 now (some ⟨st, some ⟨some lcs, some nds⟩⟩) s).next_due = none
  ∧ (added_to_hass_v2 now (some ⟨st, some ⟨some lcs, some nds⟩⟩) s).live = s.live
  ∧ (added_to_hass_v2 now (some ⟨st, some ⟨some lcs, some nds⟩⟩) s).unsub_timer
      = s.unsub_timer
  ∧ (added_to_hass_v2 now (some ⟨st, some ⟨some lcs, some nds⟩⟩) s).state
      = decide (st = "on")
  ∧ (added_to_hass_v2 now (some ⟨st, some ⟨some lcs, some nds⟩⟩) s).last_completed
      = some now
  ∧ (added_to_hass_v1 (some ⟨st, some ⟨some lcs, some nds⟩⟩) s).state
      = decide (st = "on")
  ∧ (added_to_hass_v1 (some ⟨st, some ⟨some lcs, some nds⟩⟩) s).last_completed
      = s.last_completed
  ∧ (added_to_hass_v1 (some ⟨st, some ⟨some lcs, some nds⟩⟩) s).next_due
      = s.next_due
  ∧ (added_to_hass_v1 (some ⟨st, some ⟨some lcs, some nds⟩⟩) s).live = s.live
  ∧ (added_to_hass_v1 (some ⟨st, some ⟨some lcs, some nds⟩⟩) s).unsub_timer
      = s.unsub_timer := by
  have hn2ne : nds2 ≠ "" := by intro h; rw [h] at hnd2; cases hnd2
  refine ⟨?_, ?_, ?_, ?_, ?_, ?_, ?_, ?_, ?_, ?_, ?_, ?_⟩ <;>
    simp [added_to_hass_v2, added_to_hass_v1, truthyStr, hl, hl0, hn, hn0,
      hnd2, hn2ne]

theorem restore_malformed_fallback_witness :
    (added_to_hass_v2 7 (some ⟨"off", some ⟨some "not-a-date", some "garbage"⟩⟩)
      ⟨false, none, none, "1 week", none, none, [], 0⟩).next_due = none
  ∧ (added_to_hass_v2 7 (some ⟨"off", some ⟨some "not-a-date", some "garbage"⟩⟩)
      ⟨false, none, none, "1 week", none, none, [], 0⟩).last_completed = some 7
  ∧ (added_to_hass_v1 (some ⟨"off", some ⟨some "not-a-date", some "garbage"⟩⟩)
      (init_v1 0 ⟨some "1 week", none, some (.dt 90000)⟩)).next_due
      = some 104400 := by
  have h := restore_malformed_fallback 7 "off" "not-a-date" "garbage"
    "2024-01-08T05:00:00" 63840286800 ⟨false, none, none, "1 week", none, none, [], 0⟩
    rfl (by decide) rfl (by decide) rfl
  have h2 := restore_malformed_fallback 7 "off" "not-a-date" "garbage"
    "2024-01-08T05:00:00" 63840286800 (init_v1 0 ⟨some "1 week", none, some (.dt 90000)⟩)
    rfl (by decide) rfl (by decide) rfl
  exact ⟨h.2.2.1, h.2.2.2.2.2.2.1,
    h2.2.2.2.2.2.2.2.2.2.1.trans (by rfl)⟩

/-! ## C7 -/

lemma timerInv_nil (s : Sys) (h : s.live = []) : TimerInv s := by
  constructor
  · rw [h]; simp
  · intro p hp
    rw [h] at hp
    cases hp

/-- The cancel-then-schedule pattern restores the invariant from any state
satisfying it: after cancelling the stored handle nothing is left, so the
fresh timer is the only outstanding one and its handle is the stored one. -/
lemma inv_shape (s2 s : Sys) (t : DT) (h : TimerInv s)
    (hl : s2.live = (s.fresh, t) :: cancelUnsub s)
    (hu : s2.unsub_timer = some s.fresh) : TimerInv s2 := by
  have hc := cancelUnsub_eq_nil s h
  constructor
  · rw [hl, hc]; simp
  · intro p hp
    rw [hl, hc] at hp
    simp only [List.mem_singleton] at hp
    rw [hu, hp]

lemma inv_turn_off_v1 (now : DT) (s : Sys) (h : TimerInv s) :
    TimerInv (async_turn_off_v1 now s) := by
  unfold async_turn_off_v1
  cases hm : calculate_next_due_v1 s.interval now with
  | some t => exact inv_shape _ s t h rfl rfl
  | none => exact h

lemma inv_turn_off_v2 (now : DT) (s : Sys) (h : TimerInv s) :
    TimerInv (async_turn_off_v2 now s) := by
  unfold async_turn_off_v2
  cases hm : calculate_next_due_v2 s.interval now with
  | some t => exact inv_shape _ s t h rfl rfl
  | none => exact h

lemma inv_upd_v1 (now : DT) (data : ConfigData) (s : Sys) (h : TimerInv s) :
    TimerInv (update_from_config_v1 now data s) := by
  have hc := cancelUnsub_eq_nil s h
  unfold update_from_config_v1
  cases hn : configNextDue data with
  | some t => exact inv_shape _ s t h rfl rfl
  | none =>
    constructor
    · show (cancelUnsub s).length ≤ 1
      rw [hc]; simp
    · intro p hp
      have hp2 : p ∈ cancelUnsub s := hp
      rw [hc] at hp2
      cases hp2

lemma inv_fire (hh : Nat) (s : Sys) (h : TimerInv s) : TimerInv (fireTimer hh s) := by
  unfold fireTimer
  split
  case isTrue hc =>
    obtain ⟨hlen, hall⟩ := h
    constructor
    · show ((s.live.filter fun p => p.1 ≠ hh)).length ≤ 1
      have hle := List.length_filter_le (fun p => p.1 ≠ hh) s.live
      omega
    · intro p hp
      have hp2 := List.mem_filter.mp hp
      obtain ⟨q, hq, hqh⟩ := List.any_eq_true.mp hc
      have h1 := hall p hp2.1
      have h2 := hall q hq
      rw [h1] at h2
      injection h2 with h2
      have hqh2 : q.1 = hh := of_decide_eq_true hqh
      have hph := hp2.2
      simp only [decide_eq_true_eq] at hph
      exact absurd (h2.trans hqh2) hph
  case isFalse => exact h

lemma inv_remove (s : Sys) (h : TimerInv s) :
    TimerInv (async_will_remove_from_hass s) := by
  unfold async_will_remove_from_hass
  cases hu : s.unsub_timer with
  | none => exact h
  | some h0 =>
    constructor
    · show ((s.live.filter fun p => p.1 ≠ h0)).length ≤ 1
      have hle := List.length_filter_le (fun p => p.1 ≠ h0) s.live
      have hlen := h.1
      omega
    · intro p hp
      have hp2 := List.mem_filter.mp hp
      have h1 := h.2 p hp2.1
      rw [hu] at h1
      injection h1 with h1
      have hph := hp2.2
      simp only [decide_eq_true_eq] at hph
      exact absurd h1.symm hph

lemma inv_added_v1 (snap : Option Snapshot) (s : Sys) (h : TimerInv s) :
    TimerInv (added_to_hass_v1 snap s) := by
  unfold added_to_hass_v1
  cases snap with
  | none => exact h
  | some last =>
    dsimp only
    cases hattr : last.attributes with
    | none => exact h
    | some attrs =>
      dsimp only
      split
      · split
        · exact inv_shape _ s _ h rfl rfl
        · exact h
      · exact h

lemma inv_added_v2_of_nil (now : DT) (snap : Option Snapshot) (s : Sys)
    (hl : s.live = []) : TimerInv (added_to_hass_v2 now snap s) := by
  have h : TimerInv s := timerInv_nil s hl
  unfold added_to_hass_v2
  cases snap with
  | some last =>
    dsimp only
    cases hattr : last.attributes with
    | none => exact h
    | some attrs =>
      dsimp only
      split
      · split
        · exact inv_shape _ s _ h rfl rfl
        · exact h
      · exact h
  | none =>
    dsimp only
    cases hin : s.initial_next_due with
    | some t =>
      constructor
      · show ((s.fresh, t) :: s.live).length ≤ 1
        rw [hl]; simp
      · intro p hp
        have hp2 : p ∈ (s.fresh, t) :: s.live := hp
        rw [hl] at hp2
        simp only [List.mem_singleton] at hp2
        show some s.fresh = some p.1
        rw [hp2]
    | none =>
      cases hm : calculate_next_due_v2 s.interval now with
      | some t =>
        constructor
        · show ((s.fresh, t) :: s.live).length ≤ 1
          rw [hl]; simp
        · intro p hp
          have hp2 : p ∈ (s.fresh, t) :: s.live := hp
          rw [hl] at hp2
          simp only [List.mem_singleton] at hp2
          show some s.fresh = some p.1
          rw [hp2]
      | none => exact h

lemma inv_init_v1 (now : DT) (data : ConfigData) : TimerInv (init_v1 now data) := by
  unfold init_v1
  exact inv_upd_v1 now data _ (timerInv_nil _ rfl)

/-- C7: on every reachable state of a chore (booted through either
revision, then driven by any event sequence) at most one wake-up timer is
outstanding, and any outstanding wake-up is the one whose cancel handle the
entity stores in `pending_timer`. -/
theorem single_pending_timer (s : Sys) (h : Reachable s) : TimerInv s := by
  induction h with
  | boot_v1 now data snap => exact inv_added_v1 snap _ (inv_init_v1 now data)
  | boot_v2 now data snap => exact inv_added_v2_of_nil now snap _ rfl
  | step e s2 hs ih =>
    cases e with
    | turnOn => exact ih
    | turnOff_v1 now => exact inv_turn_off_v1 now s2 ih
    | turnOff_v2 now => exact inv_turn_off_v2 now s2 ih
    | edit_v1 now data => exact inv_upd_v1 now data s2 ih
    | edit_v2 data => exact ih
    | fire hh => exact inv_fire hh s2 ih
    | remove => exact inv_remove s2 ih

theorem single_pending_timer_witness : TimerInv bootedChore :=
  single_pending_timer bootedChore
    (Reachable.boot_v2 0 ⟨some "1 week", none, none⟩ none)

theorem calc_none_iff_unmatched_witness :
    calculate_next_due_v2 "garbage" 0 = none ∧ ¬ PrefixAccepted "garbage" := by
  have h := calc_none_iff_unmatched "garbage" 0
  exact ⟨rfl, h.mp rfl⟩
